import Mathlib

/-!
Shallow embedding of the jacksonargo/file-server repository (main.go, models.go).

The embedding models:
* the Go standard library helpers the handlers rely on (the pure path
  manipulation of package path, strconv.ParseUint with base 8, and a
  filesystem abstraction of the os package calls: Stat, ReadDir, ReadFile,
  WriteFile, MkdirAll, Remove, RemoveAll);
* the wire data model of models.go (FileMeta, FileData, DirectoryData,
  DirectoryEntry, ErrorData, ResponseBody and their constructors);
* the four request handlers of main.go (handleGet, handlePut, handlePost,
  handleDelete) together with the response writers.

The filesystem is a finite association list from cleaned path strings to
entries.  An entry is either a node (regular file, directory, symlink or a
special file) or a marker that any syscall touching the path fails with
EACCES, which lets permission-denied failures be exercised concretely.
Symlink following by Stat is not modelled (the spec lists symlink target
resolution as a non-goal); umask is not modelled.  A handler is a function
from the request data to the ordered list of response bodies it writes plus
the resulting filesystem, so that a branch that keeps running after writing
an error response (as the stat switch of handlePut does in the source) is
visible as a list with two elements.
-/

/-! ### Go package path: Clean, Join, Base, Dir (pure string functions) -/

/-- Split a character list on the slash character, keeping empty segments,
mirroring strings.Split(s, "/"). -/
def splitOnSlash : List Char → List Char → List String
  | [], cur => [String.mk cur.reverse]
  | c :: rest, cur =>
    if c = '/' then String.mk cur.reverse :: splitOnSlash rest []
    else splitOnSlash rest (c :: cur)

/-- Segments of a path string, split on every slash. -/
def pathSegs (s : String) : List String := splitOnSlash s.data []

/-- Whether the path begins with a slash. -/
def isRooted (s : String) : Bool :=
  match s.data with
  | '/' :: _ => true
  | _ => false

/-- Join segments with single slashes. -/
def joinSegs : List String → String
  | [] => ""
  | [s] => s
  | s :: rest => s ++ "/" ++ joinSegs rest

/-- Core of Go path.Clean: process segments left to right, dropping empty
and dot segments and resolving dot-dot segments against the accumulator. -/
def cleanSegs (rooted : Bool) : List String → List String → List String
  | [], acc => acc.reverse
  | seg :: rest, acc =>
    if seg = "" || seg = "." then cleanSegs rooted rest acc
    else if seg = ".." then
      match acc with
      | [] => if rooted then cleanSegs rooted rest [] else cleanSegs rooted rest [".."]
      | top :: accRest =>
        if top = ".." then cleanSegs rooted rest (".." :: top :: accRest)
        else cleanSegs rooted rest accRest
    else cleanSegs rooted rest (seg :: acc)

/-- Go path.Clean. -/
def pathClean (p : String) : String :=
  if p = "" then "."
  else
    let rooted := isRooted p
    let segs := cleanSegs rooted (pathSegs p) []
    if rooted then "/" ++ joinSegs segs
    else if segs = [] then "." else joinSegs segs

/-- Go path.Join of two elements: join the non-empty elements with a slash
and Clean the result; the join of two empty strings is empty. -/
def pathJoin (a b : String) : String :=
  if a = "" && b = "" then ""
  else if a = "" then pathClean b
  else if b = "" then pathClean (a ++ "/")
  else pathClean (a ++ "/" ++ b)

/-- Remove all trailing slashes. -/
def dropTrailingSlashes (s : String) : String :=
  String.mk ((s.data.reverse.dropWhile (fun c => c == '/')).reverse)

/-- Go path.Base: the last element of the path; "." for the empty path, "/"
for a path of only slashes. -/
def pathBase (p : String) : String :=
  if p = "" then "."
  else
    let q := dropTrailingSlashes p
    if q = "" then "/"
    else String.mk ((q.data.reverse.takeWhile (fun c => c != '/')).reverse)

/-- Go path.Dir: everything before the final slash, Cleaned; "." when the
path holds no slash. -/
def pathDir (p : String) : String :=
  match pathSegs p with
  | [] => "."
  | [_] => "."
  | segs => pathClean (joinSegs segs.dropLast ++ "/")

/-! ### Numeric helpers: byte lengths, octal formatting and parsing -/

/-- Number of UTF-8 bytes of one character, mirroring Go string encoding. -/
def charSize (c : Char) : Nat :=
  if c.toNat < 0x80 then 1
  else if c.toNat < 0x800 then 2
  else if c.toNat < 0x10000 then 3
  else 4

/-- Byte length of a string, mirroring Go len(s). -/
def byteLen (s : String) : Nat := s.data.foldl (fun n c => n + charSize c) 0

/-- Octal digit string of a natural number, mirroring the %o verb. -/
def octalString (n : Nat) : String := String.mk (Nat.toDigits 8 n)

/-- Permission-bit mask, mirroring mode & 0777 (FileMode.Perm). -/
def permMask (m : Nat) : Nat := m % 512

/-- Go strconv.ParseUint(s, 8, 32): a non-empty string of octal digits whose
value fits 32 bits; anything else is a parse error. -/
def parseOctal (s : String) : Option Nat :=
  if s.data = [] then none
  else if s.data.all (fun c => 48 ≤ c.toNat && c.toNat ≤ 55) then
    let v := s.data.foldl (fun a c => a * 8 + (c.toNat - 48)) 0
    if v < 4294967296 then some v else none
  else none

/-! ### Filesystem model -/

/-- Filesystem node kinds distinguished by the file mode bits the code
inspects: regular file, directory, symlink, and the special kinds that the
entry classifier reports as unsupported. -/
inductive FsNode where
  | file (perm uid : Nat) (contents : String)
  | dir (perm uid : Nat)
  | symlink (target : String)
  | device
  | socket
  | pipe
deriving DecidableEq

/-- A path in the filesystem either carries a node or is marked denied:
every syscall touching a denied path fails with EACCES. -/
inductive FsEntry where
  | node (n : FsNode)
  | denied
deriving DecidableEq

/-- The filesystem: an association list from cleaned path strings to
entries. -/
abbrev Fs := List (String × FsEntry)

/-- Errno values the handlers distinguish. -/
inductive Errno where
  | ENOENT
  | EACCES
  | ENOTEMPTY
  | EISDIR
  | ENOTDIR
deriving DecidableEq

/-- Message text of each errno, as strerror renders it on Linux. -/
def Errno.message : Errno → String
  | .ENOENT => "no such file or directory"
  | .EACCES => "permission denied"
  | .ENOTEMPTY => "directory not empty"
  | .EISDIR => "is a directory"
  | .ENOTDIR => "not a directory"

/-- A PathError as returned by the os package: operation, path, errno. -/
structure OsError where
  op : String
  path : String
  errno : Errno
deriving DecidableEq

/-- Rendering of a PathError, mirroring err.Error(). -/
def OsError.Error (e : OsError) : String :=
  e.op ++ " " ++ e.path ++ ": " ++ e.errno.message

/-- Go os.IsNotExist. -/
def isNotExist (e : OsError) : Bool :=
  match e.errno with
  | .ENOENT => true
  | _ => false

/-- Uid of the server process; file and directory creation records it as the
owner (the tests observe owner zero). -/
def procUid : Nat := 0

/-- First entry stored at a path, if any. -/
def lookup (fs : Fs) (name : String) : Option FsEntry :=
  match fs with
  | [] => none
  | e :: rest => if e.1 = name then some e.2 else lookup rest name

/-- Replace the node stored at a path. -/
def updateEntry (fs : Fs) (name : String) (n : FsNode) : Fs :=
  fs.map (fun e => if e.1 = name then (name, FsEntry.node n) else e)

/-- Drop the entry stored at a path. -/
def removeKey (fs : Fs) (name : String) : Fs :=
  fs.filter (fun e => e.1 != name)

/-- Whether a directory path has at least one immediate child entry. -/
def hasChildren (fs : Fs) (name : String) : Bool :=
  fs.any (fun e => decide (pathDir e.1 = name) && decide (e.1 ≠ name))

/-- Go os.Stat on the model filesystem.  The test suite shows the stat
failure of this build reports the lstat operation, so errors carry that
name; symlink following is outside the model. -/
def osStat (fs : Fs) (name : String) : Except OsError FsNode :=
  match lookup fs name with
  | none => .error ⟨"lstat", name, .ENOENT⟩
  | some .denied => .error ⟨"lstat", name, .EACCES⟩
  | some (.node n) => .ok n

/-- Go os.ReadFile: contents of a regular file.  Reads of non-regular nodes
are not exercised by the handlers on their success paths and are modelled as
failures. -/
def readFile (fs : Fs) (name : String) : Except OsError String :=
  match lookup fs name with
  | none => .error ⟨"open", name, .ENOENT⟩
  | some .denied => .error ⟨"open", name, .EACCES⟩
  | some (.node (.file _ _ c)) => .ok c
  | some (.node (.dir _ _)) => .error ⟨"read", name, .EISDIR⟩
  | some (.node _) => .error ⟨"open", name, .EACCES⟩

/-- Go os.WriteFile (O_WRONLY, O_CREATE, O_TRUNC): an existing regular file
keeps its permission bits and gets new contents; a missing file is created
under its parent directory with the permission bits of the request (mode
bits above 0777 map to special FileMode bits and are dropped, umask is not
modelled); writing a directory fails EISDIR.  Writes through symlinks and to
special files are not exercised by the verified properties and are modelled
as EACCES failures. -/
def writeFile (fs : Fs) (name : String) (contents : String) (perm : Nat) :
    Except OsError Fs :=
  match lookup fs name with
  | some (.node (.file p u _)) => .ok (updateEntry fs name (.file p u contents))
  | some (.node (.dir _ _)) => .error ⟨"open", name, .EISDIR⟩
  | some .denied => .error ⟨"open", name, .EACCES⟩
  | some (.node _) => .error ⟨"open", name, .EACCES⟩
  | none =>
    match lookup fs (pathDir name) with
    | some (.node (.dir _ _)) =>
      .ok ((name, FsEntry.node (.file (permMask perm) procUid contents)) :: fs)
    | some .denied => .error ⟨"open", name, .EACCES⟩
    | some (.node _) => .error ⟨"open", name, .ENOTDIR⟩
    | none => .error ⟨"open", name, .ENOENT⟩

/-- Cumulative path prefixes of the segments, shortest first. -/
def cumulativePaths (base : String) : List String → List String
  | [] => []
  | s :: rest =>
    let p := base ++ s
    p :: cumulativePaths (p ++ "/") rest

/-- Every ancestor prefix of a cleaned path, shortest first, the path itself
last. -/
def pathAncestors (name : String) : List String :=
  if isRooted name then
    cumulativePaths "/" ((pathSegs name).filter (fun s => s != ""))
  else
    cumulativePaths "" ((pathSegs name).filter (fun s => s != ""))

/-- Worker of MkdirAll: create each missing ancestor as a directory; an
ancestor occupied by a non-directory fails ENOTDIR. -/
def mkdirList (fs : Fs) (perm : Nat) : List String → Except OsError Fs
  | [] => .ok fs
  | p :: rest =>
    match lookup fs p with
    | some (.node (.dir _ _)) => mkdirList fs perm rest
    | none => mkdirList ((p, FsEntry.node (.dir (permMask perm) procUid)) :: fs) perm rest
    | some .denied => .error ⟨"mkdir", p, .EACCES⟩
    | some (.node _) => .error ⟨"mkdir", p, .ENOTDIR⟩

/-- Go os.MkdirAll. -/
def mkdirAll (fs : Fs) (name : String) (perm : Nat) : Except OsError Fs :=
  mkdirList fs perm (pathAncestors name)

/-- Go os.Remove: delete one entry; a missing path fails ENOENT, a directory
with children fails ENOTEMPTY. -/
def osRemove (fs : Fs) (name : String) : Except OsError Fs :=
  match lookup fs name with
  | none => .error ⟨"remove", name, .ENOENT⟩
  | some .denied => .error ⟨"remove", name, .EACCES⟩
  | some (.node (.dir _ _)) =>
    if hasChildren fs name then .error ⟨"remove", name, .ENOTEMPTY⟩
    else .ok (removeKey fs name)
  | some (.node _) => .ok (removeKey fs name)

/-- Character-list prefix test. -/
def charPrefix : List Char → List Char → Bool
  | [], _ => true
  | _ :: _, [] => false
  | a :: as, b :: bs => a = b && charPrefix as bs

/-- Whether key lies strictly below the directory name in the path tree. -/
def underDir (name key : String) : Bool :=
  charPrefix (name ++ "/").data key.data

/-- Go os.RemoveAll: delete the path and everything below it; removing a
missing path is not an error, while a permission-denied target fails with
EACCES, reported against the unlinkat operation as on Linux.  The failure is
modelled at the named path itself (a denied entry strictly below a removable
target would also fail in reality; no handler property exercises that). -/
def osRemoveAll (fs : Fs) (name : String) : Except OsError Fs :=
  match lookup fs name with
  | some FsEntry.denied => .error ⟨"unlinkat", name, .EACCES⟩
  | _ => .ok (fs.filter (fun e => !(e.1 == name || underDir name e.1)))

/-- Byte-wise order on strings, as Go string comparison. -/
def strLeB : List Char → List Char → Bool
  | [], _ => true
  | _ :: _, [] => false
  | a :: as, b :: bs => if a = b then strLeB as bs else decide (a.toNat < b.toNat)

/-- Name order for directory listings. -/
def nameLe (a b : String) : Bool := strLeB a.data b.data

/-- Insertion into a name-sorted child list. -/
def insertSorted (x : String × FsNode) :
    List (String × FsNode) → List (String × FsNode)
  | [] => [x]
  | y :: ys => if nameLe x.1 y.1 then x :: y :: ys else y :: insertSorted x ys

/-- Sort children by name, as os.ReadDir sorts by filename. -/
def sortByName (l : List (String × FsNode)) : List (String × FsNode) :=
  l.foldr insertSorted []

/-- Immediate children of a directory with their own nodes, sorted by name.
Children whose stat is denied are outside the model of a listing. -/
def childrenOf (fs : Fs) (d : String) : List (String × FsNode) :=
  sortByName (fs.filterMap (fun e =>
    if pathDir e.1 = d ∧ e.1 ≠ d then
      match e.2 with
      | .node n => some (pathBase e.1, n)
      | .denied => none
    else none))

/-- Go os.ReadDir: the sorted immediate children of a directory. -/
def readDir (fs : Fs) (name : String) : Except OsError (List (String × FsNode)) :=
  match lookup fs name with
  | none => .error ⟨"open", name, .ENOENT⟩
  | some .denied => .error ⟨"open", name, .EACCES⟩
  | some (.node (.dir _ _)) => .ok (childrenOf fs name)
  | some (.node _) => .error ⟨"readdirent", name, .ENOTDIR⟩

/-! ### FileInfo accessors (mode, size, owner) -/

/-- Mode().IsRegular() of a node. -/
def nodeIsRegular : FsNode → Bool
  | .file _ _ _ => true
  | _ => false

/-- Mode().IsDir() of a node. -/
def nodeIsDir : FsNode → Bool
  | .dir _ _ => true
  | _ => false

/-- Whether the mode carries the symlink type bit. -/
def nodeIsSymlink : FsNode → Bool
  | .symlink _ => true
  | _ => false

/-- Permission bits recorded for a node; a symlink reports mode 0777 as
lstat does on Linux, special files are immaterial to the verified claims. -/
def nodePerm : FsNode → Nat
  | .file p _ _ => p
  | .dir p _ => p
  | .symlink _ => 511
  | _ => 0

/-- Owner uid recorded for a node. -/
def nodeUid : FsNode → Nat
  | .file _ u _ => u
  | .dir _ u => u
  | _ => procUid

/-- Size() of a node: byte length for files, the platform directory entry
size for directories, target length for symlinks. -/
def nodeSize : FsNode → Nat
  | .file _ _ c => byteLen c
  | .dir _ _ => 4096
  | .symlink t => byteLen t
  | _ => 0

/-! ### Wire data model (models.go) -/

/-- Shared metadata shape embedded in file, directory and entry payloads. -/
structure FileMeta where
  Name : String
  Path : String
  Owner : String
  Permissions : String
  Size : Nat
deriving DecidableEq

/-- File payload: metadata plus full contents. -/
structure FileData extends FileMeta where
  Contents : String
deriving DecidableEq

/-- One child entry of a directory listing: metadata plus a type tag.  The
Go field Type is a reserved word in Lean, hence the trailing underscore. -/
structure DirectoryEntry extends FileMeta where
  Type_ : String
deriving DecidableEq

/-- Directory payload: metadata plus the list of child entries. -/
structure DirectoryData extends FileMeta where
  Entries : List DirectoryEntry
deriving DecidableEq

/-- Error payload: numeric code and message. -/
structure ErrorData where
  Code : Nat
  Error : String
deriving DecidableEq

/-- Response body: status and type tags plus at most one payload.  The Go
field Type is a reserved word in Lean, hence the trailing underscore. -/
structure ResponseBody where
  Status : String
  Type_ : String
  Error : Option ErrorData
  File : Option FileData
  Directory : Option DirectoryData
deriving DecidableEq

/-- Response type tag for files. -/
def ResponseTypeFile : String := "file"

/-- Response type tag for directories. -/
def ResponseTypeDirectory : String := "directory"

/-- Response type tag for deletions. -/
def ResponseTypeDeleted : String := "deleted"

/-- Response type tag for errors. -/
def ResponseTypeError : String := "error"

/-- Entry type tag for regular files. -/
def DirectoryEntryTypeFile : String := ResponseTypeFile

/-- Entry type tag for directories. -/
def DirectoryEntryTypeDirectory : String := ResponseTypeDirectory

/-- Entry type tag for symlinks. -/
def DirectoryEntryTypeSymlink : String := "symlink"

/-- Entry type tag for every other node kind. -/
def DirectoryEntryTypeUnsupported : String := "unsupported"

/-- Status code of a response body (models.go ResponseBody.Code): 200 for a
non-error type, the payload code when an error payload is present, 500 for
an error type without payload. -/
def ResponseBody.Code (x : ResponseBody) : Nat :=
  if x.Type_ ≠ ResponseTypeError then 200
  else
    match x.Error with
    | some e => e.Code
    | none => 500

/-- Metadata of a stat result (models.go NewFileMeta): base name of the
path, the path as given, decimal owner uid, octal permissions with a
leading zero, and the size. -/
def NewFileMeta (filePath : String) (info : FsNode) : FileMeta :=
  { Name := pathBase filePath
    Path := filePath
    Owner := toString (nodeUid info)
    Permissions := "0" ++ octalString (permMask (nodePerm info))
    Size := nodeSize info }

/-- File payload constructor (models.go NewFileData). -/
def NewFileData (filePath : String) (info : FsNode) (contents : String) : FileData :=
  { toFileMeta := NewFileMeta filePath info, Contents := contents }

/-- Child entry constructor (models.go NewDirectoryEntry): classify by the
entry's own mode, then build metadata for the joined path.  The mode is the
non-followed one: a symlink child is classified by its symlink bit, never by
its target. -/
def NewDirectoryEntry (dirPath : String) (entry : String × FsNode) : DirectoryEntry :=
  let info := entry.2
  let entryType :=
    if nodeIsRegular info then DirectoryEntryTypeFile
    else if nodeIsDir info then DirectoryEntryTypeDirectory
    else if nodeIsSymlink info then DirectoryEntryTypeSymlink
    else DirectoryEntryTypeUnsupported
  { toFileMeta := NewFileMeta (pathJoin dirPath entry.1) info
    Type_ := entryType }

/-- Directory payload constructor (models.go NewDirectoryData). -/
def NewDirectoryData (dirPath : String) (info : FsNode)
    (dirEntries : List (String × FsNode)) : DirectoryData :=
  { toFileMeta := NewFileMeta dirPath info
    Entries := dirEntries.map (NewDirectoryEntry dirPath) }

/-- Request body of PUT. -/
structure PutFileRequest where
  Permissions : String
  Contents : String
deriving DecidableEq

/-- One element of the request body of POST. -/
structure PostFileRequest where
  Name : String
  Permissions : String
  Contents : String
deriving DecidableEq

/-! ### Response writers and error helpers (main.go) -/

/-- Error response with the given code and message. -/
def writeErrorResponse (code : Nat) (reason : String) : ResponseBody :=
  { Status := "error"
    Type_ := ResponseTypeError
    Error := some ⟨code, reason⟩
    File := none
    Directory := none }

/-- NotFound response, code 404 with the error text. -/
def notFound (err : OsError) : ResponseBody :=
  writeErrorResponse 404 err.Error

/-- BadRequest response, code 400. -/
def badRequest (reason : String) : ResponseBody :=
  writeErrorResponse 400 reason

/-- BadRequest for a malformed request body. -/
def invalidJson (msg : String) : ResponseBody :=
  badRequest ("invalid json: " ++ msg)

/-- BadRequest for a permissions string that fails octal parsing. -/
def invalidPermissions (fileName : String) : ResponseBody :=
  badRequest (fileName ++ " has invalid octal permissions")

/-- InternalServerError response, code 500 with the error text. -/
def internalServerError (err : OsError) : ResponseBody :=
  writeErrorResponse 500 err.Error

/-- Successful deletion response. -/
def deletedResponse : ResponseBody :=
  { Status := "ok", Type_ := ResponseTypeDeleted
    Error := none, File := none, Directory := none }

/-- Response of main.go writeFileResponse: re-stat the path, read it, and
answer with the file payload; either failure is an InternalServerError. -/
def writeFileResponse (fs : Fs) (urlPath filePath : String) : List ResponseBody :=
  match osStat fs filePath with
  | .error err => [internalServerError err]
  | .ok info =>
    match readFile fs filePath with
    | .error err => [internalServerError err]
    | .ok contents =>
      [{ Status := "ok", Type_ := ResponseTypeFile
         Error := none
         File := some (NewFileData urlPath info contents)
         Directory := none }]

/-- Response of main.go writeDirResponse: stat the directory, list it, and
answer with the directory payload; a root URL path forces the name to a
slash. -/
def writeDirResponse (fs : Fs) (urlPath dirName : String) : List ResponseBody :=
  match osStat fs dirName with
  | .error err => [internalServerError err]
  | .ok dirInfo =>
    match readDir fs dirName with
    | .error err => [internalServerError err]
    | .ok dirEntries =>
      let dirData := NewDirectoryData urlPath dirInfo dirEntries
      let dirData := if urlPath = "/" then { dirData with Name := "/" } else dirData
      [{ Status := "ok", Type_ := ResponseTypeDirectory
         Error := none, File := none
         Directory := some dirData }]

/-! ### Request handlers (main.go) -/

/-- GET handler: join the URL path under the content root, stat it, and
answer with file contents, a directory listing, or the classified error. -/
def handleGet (contentRoot : String) (fs : Fs) (urlPath : String) : List ResponseBody :=
  let fileName := pathJoin contentRoot urlPath
  match osStat fs fileName with
  | .error err =>
    if isNotExist err then [notFound err] else [internalServerError err]
  | .ok fileInfo =>
    if nodeIsRegular fileInfo then writeFileResponse fs urlPath fileName
    else if nodeIsDir fileInfo then writeDirResponse fs urlPath fileName
    else [badRequest "unsupported file type"]

/-- Tail of the PUT handler after the target stat switch: parse the
permissions, write the file, and echo it back.  The acc argument carries any
response already written by the stat switch; the source's err-not-ENOENT
case writes an InternalServerError but lacks a return, so execution arrives
here with that response already emitted. -/
def handlePutWrite (fs : Fs) (urlPath fileName : String) (data : PutFileRequest)
    (acc : List ResponseBody) : List ResponseBody × Fs :=
  match parseOctal data.Permissions with
  | none => (acc ++ [invalidPermissions fileName], fs)
  | some perms =>
    match writeFile fs fileName data.Contents perms with
    | .error err => (acc ++ [internalServerError err], fs)
    | .ok fs1 => (acc ++ writeFileResponse fs1 urlPath fileName, fs1)

/-- Stat switch of the PUT handler over the target path: an existing regular
file or a missing path proceeds; another stat error writes an
InternalServerError and still proceeds (the source case has no return); an
existing non-regular node answers BadRequest and stops. -/
def handlePutStat (fs : Fs) (urlPath fileName : String) (data : PutFileRequest) :
    List ResponseBody × Fs :=
  match osStat fs fileName with
  | .ok info =>
    if nodeIsRegular info then handlePutWrite fs urlPath fileName data []
    else ([badRequest (fileName ++ " is not a file")], fs)
  | .error err =>
    if isNotExist err then handlePutWrite fs urlPath fileName data []
    else handlePutWrite fs urlPath fileName data [internalServerError err]

/-- PUT handler: decode the body, ensure the parent directory exists
(creating it with mode 0700 when missing), run the target stat switch, then
parse permissions and write.  The decoded body is passed as a parse outcome;
a decode failure answers BadRequest with the invalid-json message. -/
def handlePut (contentRoot : String) (fs : Fs) (urlPath : String)
    (body : Except String PutFileRequest) : List ResponseBody × Fs :=
  match body with
  | .error msg => ([invalidJson msg], fs)
  | .ok data =>
    let fileName := pathJoin contentRoot urlPath
    let dirName := pathDir fileName
    match osStat fs dirName with
    | .error err =>
      if isNotExist err then
        match mkdirAll fs dirName 448 with
        | .error err2 => ([internalServerError err2], fs)
        | .ok fs1 => handlePutStat fs1 urlPath fileName data
      else ([internalServerError err], fs)
    | .ok _ => handlePutStat fs urlPath fileName data

/-- Validated arguments of one POST entry (main.go createFileArgs). -/
structure createFileArgs where
  fileName : String
  content : String
  perms : Nat
deriving DecidableEq

/-- Validation pass of the POST handler: walk the entries in order, resolve
each name under the directory and parse its permissions; the first entry
whose permissions fail to parse aborts with its resolved path, before any
file is written. -/
def handlePostValidate (dirName : String) :
    List PostFileRequest → Except String (List createFileArgs)
  | [] => .ok []
  | d :: rest =>
    let fileName := pathJoin dirName d.Name
    match parseOctal d.Permissions with
    | none => .error fileName
    | some perms =>
      match handlePostValidate dirName rest with
      | .error bad => .error bad
      | .ok args => .ok (⟨fileName, d.Contents, perms⟩ :: args)

/-- Write pass of the POST handler: write each validated entry in order; the
first write failure aborts, leaving the files already written in place. -/
def handlePostWrite (fs : Fs) : List createFileArgs → Except (OsError × Fs) Fs
  | [] => .ok fs
  | a :: rest =>
    match writeFile fs a.fileName a.content a.perms with
    | .error err => .error (err, fs)
    | .ok fs1 => handlePostWrite fs1 rest

/-- Body stage of the POST handler, after the directory exists: decode the
array, validate every entry, write them all, then answer with the directory
listing. -/
def handlePostBody (fs : Fs) (urlPath dirName : String)
    (body : Except String (List PostFileRequest)) : List ResponseBody × Fs :=
  match body with
  | .error msg => ([invalidJson msg], fs)
  | .ok data =>
    match handlePostValidate dirName data with
    | .error badName => ([invalidPermissions badName], fs)
    | .ok args =>
      match handlePostWrite fs args with
      | .error (err, fs1) => ([internalServerError err], fs1)
      | .ok fs1 => (writeDirResponse fs1 urlPath dirName, fs1)

/-- POST handler: stat the target directory (creating it with mode 0700 when
missing, answering BadRequest when it exists as a non-directory), then run
the body stage. -/
def handlePost (contentRoot : String) (fs : Fs) (urlPath : String)
    (body : Except String (List PostFileRequest)) : List ResponseBody × Fs :=
  let dirName := pathJoin contentRoot urlPath
  match osStat fs dirName with
  | .ok info =>
    if nodeIsDir info then handlePostBody fs urlPath dirName body
    else ([badRequest (dirName ++ " is not a directory")], fs)
  | .error err =>
    if isNotExist err then
      match mkdirAll fs dirName 448 with
      | .error err2 => ([internalServerError err2], fs)
      | .ok fs1 => handlePostBody fs1 urlPath dirName body
    else ([internalServerError err], fs)

/-- DELETE handler: remove the joined path, recursively when the recursive
query value is the string true; classify the failure as BadRequest for a
non-empty directory, NotFound for a missing path, InternalServerError
otherwise. -/
def handleDelete (contentRoot : String) (fs : Fs) (urlPath : String)
    (recursive : String) : List ResponseBody × Fs :=
  let fileName := pathJoin contentRoot urlPath
  let result :=
    if recursive = "true" then osRemoveAll fs fileName else osRemove fs fileName
  match result with
  | .ok fs1 => ([deletedResponse], fs1)
  | .error err =>
    if err.errno = .ENOTEMPTY then ([badRequest err.Error], fs)
    else if isNotExist err then ([notFound err], fs)
    else ([internalServerError err], fs)

/-! ### Concrete filesystem fixtures used by witnesses and counterexamples -/

/-- Content root directory alone. -/
def fsRootOnly : Fs := [("root", FsEntry.node (.dir 448 0))]

/-- Content root holding one regular file with mode 0644. -/
def fsWithFile : Fs :=
  [("root", FsEntry.node (.dir 448 0)),
   ("root/f", FsEntry.node (.file 420 0 "old"))]

/-- Content root holding a path whose syscalls are permission-denied. -/
def fsWithDenied : Fs :=
  [("root", FsEntry.node (.dir 448 0)),
   ("root/secret", FsEntry.denied)]

/-- Content root holding a non-empty subdirectory. -/
def fsWithSubdir : Fs :=
  [("root", FsEntry.node (.dir 448 0)),
   ("root/d", FsEntry.node (.dir 448 0)),
   ("root/d/x", FsEntry.node (.file 420 0 "y"))]

/-- Content root where a path and its parent are both permission-denied. -/
def fsDeniedChain : Fs :=
  [("root", FsEntry.node (.dir 448 0)),
   ("root/a", FsEntry.denied),
   ("root/a/b", FsEntry.denied)]

/-- Regular-file view of the entry stored at a path: its permissions, owner
and contents when the path holds a regular file, nothing otherwise. -/
def fileLookup (fs : Fs) (p : String) : Option (Nat × Nat × String) :=
  match lookup fs p with
  | some (.node (.file perm uid c)) => some (perm, uid, c)
  | _ => none

/-! ### Helper lemmas -/

/-- Strings with equal character data are equal. -/
theorem string_ext {a b : String} (h : a.data = b.data) : a = b := by
  cases a
  cases b
  exact congrArg String.mk h

/-- Character data of an appended string. -/
theorem string_data_append (a b : String) : (a ++ b).data = a.data ++ b.data := by
  cases a
  cases b
  rfl

/-- String append is associative. -/
theorem string_append_assoc (a b c : String) : a ++ b ++ c = a ++ (b ++ c) := by
  cases a
  cases b
  cases c
  apply string_ext
  simp [string_data_append, List.append_assoc]

/-- The permission mask is idempotent. -/
theorem permMask_permMask (m : Nat) : permMask (permMask m) = permMask m := by
  unfold permMask
  omega

/-- Taking non-slash characters from a list of non-slash characters followed
by a slash returns exactly the prefix. -/
theorem takeWhile_ne_slash (l r : List Char) (h : ∀ c ∈ l, c ≠ '/') :
    (l ++ '/' :: r).takeWhile (fun c => c != '/') = l := by
  induction l with
  | nil => simp
  | cons a t ih =>
    have ha : a ≠ '/' := h a (by simp)
    have ht : ∀ c ∈ t, c ≠ '/' := fun c hc => h c (by simp [hc])
    have hab : (a != '/') = true := by simp [ha]
    simp [List.takeWhile, hab, ih ht]

/-- Base name of a path ending in a slash-free non-empty segment is that
segment. -/
theorem pathBase_concat (pre seg : String) (hne : seg ≠ "")
    (hn : ∀ ch ∈ seg.data, ch ≠ '/') :
    pathBase (pre ++ "/" ++ seg) = seg := by
  have hdata : (pre ++ "/" ++ seg).data = pre.data ++ '/' :: seg.data := by
    simp [string_data_append]
  have hsegne : seg.data ≠ [] := fun hs => hne (string_ext (by simp [hs]))
  obtain ⟨a, t, hat⟩ := List.exists_cons_of_ne_nil (l := seg.data.reverse)
    (by simpa using hsegne)
  have ha : a ≠ '/' := by
    have : a ∈ seg.data.reverse := by rw [hat]; exact List.mem_cons_self a t
    exact hn a (List.mem_reverse.mp this)
  have hpne : pre ++ "/" ++ seg ≠ "" := by
    intro hp
    have : (pre ++ "/" ++ seg).data = [] := by rw [hp]
    rw [hdata] at this
    simp at this
  have hrev : (pre ++ "/" ++ seg).data.reverse =
      seg.data.reverse ++ '/' :: pre.data.reverse := by
    rw [hdata]
    simp
  have hab : (a == '/') = false := by simp [ha]
  have hdrop : dropTrailingSlashes (pre ++ "/" ++ seg) = pre ++ "/" ++ seg := by
    apply string_ext
    show ((pre ++ "/" ++ seg).data.reverse.dropWhile (fun c => c == '/')).reverse
        = (pre ++ "/" ++ seg).data
    rw [hrev, hat, List.cons_append, List.dropWhile_cons]
    simp only [hab, Bool.false_eq_true, if_false]
    rw [← List.cons_append, ← hat, ← hrev, List.reverse_reverse]
  have htake : ((a :: t) ++ '/' :: pre.data.reverse).takeWhile (fun c => c != '/')
      = a :: t := by
    have hmem : ∀ c ∈ a :: t, c ≠ '/' := by
      intro c hc
      have : c ∈ seg.data.reverse := by rw [hat]; exact hc
      exact hn c (List.mem_reverse.mp this)
    exact takeWhile_ne_slash (a :: t) pre.data.reverse hmem
  show pathBase (pre ++ "/" ++ seg) = seg
  unfold pathBase
  rw [if_neg hpne]
  simp only [hdrop, if_neg hpne]
  rw [hrev, hat, htake, ← hat, List.reverse_reverse]

/-- Looking up the updated path after updateEntry finds the new node,
provided the path was present. -/
theorem lookup_updateEntry_self (fs : Fs) (name : String) (n : FsNode)
    (e : FsEntry) (h : lookup fs name = some e) :
    lookup (updateEntry fs name n) name = some (.node n) := by
  induction fs with
  | nil => simp [lookup] at h
  | cons x xs ih =>
    by_cases hx : x.1 = name
    · simp [updateEntry, lookup, hx]
    · simp only [lookup, if_neg hx] at h
      simp only [updateEntry, List.map_cons, if_neg hx, lookup]
      exact ih h

/-- Creating directories never adds, removes or changes a regular file. -/
theorem mkdirList_files (perm : Nat) (ps : List String) :
    ∀ fs fs1, mkdirList fs perm ps = .ok fs1 →
      ∀ p, fileLookup fs1 p = fileLookup fs p := by
  induction ps with
  | nil =>
    intro fs fs1 h p
    simp only [mkdirList] at h
    cases h
    rfl
  | cons q qs ih =>
    intro fs fs1 h p
    simp only [mkdirList] at h
    cases hq : lookup fs q with
    | none =>
      rw [hq] at h
      have step := ih _ _ h p
      rw [step]
      by_cases hpq : q = p
      · subst hpq
        simp [fileLookup, lookup, hq]
      · simp [fileLookup, lookup, hpq]
    | some e =>
      rw [hq] at h
      cases e with
      | denied => simp at h
      | node n =>
        cases n with
        | dir a b => exact ih _ _ h p
        | file a b c => simp at h
        | symlink t => simp at h
        | device => simp at h
        | socket => simp at h
        | pipe => simp at h

/-- MkdirAll never adds, removes or changes a regular file. -/
theorem mkdirAll_files (fs fs1 : Fs) (name : String) (perm : Nat)
    (h : mkdirAll fs name perm = .ok fs1) :
    ∀ p, fileLookup fs1 p = fileLookup fs p :=
  mkdirList_files perm (pathAncestors name) fs fs1 h

/-- The validation pass stops at the first entry with unparsable
permissions and reports that entry's resolved path. -/
theorem handlePostValidate_first_error (dirName : String)
    (good rest : List PostFileRequest) (bad : PostFileRequest)
    (hgood : ∀ d ∈ good, (parseOctal d.Permissions).isSome = true)
    (hbad : parseOctal bad.Permissions = none) :
    handlePostValidate dirName (good ++ bad :: rest) =
      .error (pathJoin dirName bad.Name) := by
  induction good with
  | nil => simp [handlePostValidate, hbad]
  | cons d ds ih =>
    have hd := hgood d (by simp)
    obtain ⟨v, hv⟩ := Option.isSome_iff_exists.mp hd
    have ihh := ih (fun x hx => hgood x (by simp [hx]))
    simp [handlePostValidate, hv, ihh]

/-- Creating directories preserves every entry already present. -/
theorem mkdirList_preserves_some (perm : Nat) (ps : List String) :
    ∀ fs fs1, mkdirList fs perm ps = .ok fs1 →
      ∀ x e, lookup fs x = some e → lookup fs1 x = some e := by
  induction ps with
  | nil =>
    intro fs fs1 h x e hx
    simp only [mkdirList] at h
    cases h
    exact hx
  | cons q qs ih =>
    intro fs fs1 h x e hx
    simp only [mkdirList] at h
    cases hq : lookup fs q with
    | none =>
      rw [hq] at h
      have hxq : x ≠ q := by
        intro hh
        rw [hh, hq] at hx
        cases hx
      have hx2 : lookup ((q, FsEntry.node (.dir (permMask perm) procUid)) :: fs)
          x = some e := by
        simp only [lookup, if_neg (Ne.symm hxq)]
        exact hx
      exact ih _ _ h x e hx2
    | some e2 =>
      rw [hq] at h
      cases e2 with
      | denied => simp at h
      | node n =>
        cases n with
        | dir a b => exact ih _ _ h x e hx
        | file a b c => simp at h
        | symlink t => simp at h
        | device => simp at h
        | socket => simp at h
        | pipe => simp at h

/-- Creating directories leaves a path outside the created prefix list
absent when it was absent. -/
theorem mkdirList_preserves_none (perm : Nat) (ps : List String) :
    ∀ fs fs1, mkdirList fs perm ps = .ok fs1 →
      ∀ x, x ∉ ps → lookup fs x = none → lookup fs1 x = none := by
  induction ps with
  | nil =>
    intro fs fs1 h x _ hx
    simp only [mkdirList] at h
    cases h
    exact hx
  | cons q qs ih =>
    intro fs fs1 h x hmem hx
    have hxq : x ≠ q := fun hh => hmem (by simp [hh])
    have hmem2 : x ∉ qs := fun hh => hmem (by simp [hh])
    simp only [mkdirList] at h
    cases hq : lookup fs q with
    | none =>
      rw [hq] at h
      have hx2 : lookup ((q, FsEntry.node (.dir (permMask perm) procUid)) :: fs)
          x = none := by
        simp only [lookup, if_neg (Ne.symm hxq)]
        exact hx
      exact ih _ _ h x hmem2 hx2
    | some e2 =>
      rw [hq] at h
      cases e2 with
      | denied => simp at h
      | node n =>
        cases n with
        | dir a b => exact ih _ _ h x hmem2 hx
        | file a b c => simp at h
        | symlink t => simp at h
        | device => simp at h
        | socket => simp at h
        | pipe => simp at h

/-- After a successful mkdirList run every listed path holds a directory. -/
theorem mkdirList_creates_dirs (perm : Nat) (ps : List String) :
    ∀ fs fs1, mkdirList fs perm ps = .ok fs1 →
      ∀ q ∈ ps, ∃ a b, lookup fs1 q = some (FsEntry.node (.dir a b)) := by
  induction ps with
  | nil =>
    intro fs fs1 _ q hq
    exact absurd hq (List.not_mem_nil q)
  | cons q qs ih =>
    intro fs fs1 h x hx
    simp only [mkdirList] at h
    cases hq : lookup fs q with
    | none =>
      rw [hq] at h
      rcases List.mem_cons.mp hx with hxq | hxs
      · subst hxq
        refine ⟨permMask perm, procUid, ?_⟩
        apply mkdirList_preserves_some perm qs _ _ h
        simp [lookup]
      · exact ih _ _ h x hxs
    | some e2 =>
      rw [hq] at h
      cases e2 with
      | denied => simp at h
      | node n =>
        cases n with
        | dir a b =>
          rcases List.mem_cons.mp hx with hxq | hxs
          · subst hxq
            exact ⟨a, b, mkdirList_preserves_some perm qs _ _ h x _ hq⟩
          · exact ih _ _ h x hxs
        | file a b c => simp at h
        | symlink t => simp at h
        | device => simp at h
        | socket => simp at h
        | pipe => simp at h

/-- Core of the fresh-PUT round trip: once the handler has reached the
target-stat switch over a filesystem in which the parent directory exists
and the target is absent, the PUT answers ok with the file and a GET on the
resulting filesystem returns the written contents and the canonical octal
rendering of the written permission bits. -/
theorem put_roundtrip_core
    (root urlPath p c : String) (fs fsx : Fs) (v dp du : Nat)
    (hparent : lookup fsx (pathDir (pathJoin root urlPath)) =
      some (.node (.dir dp du)))
    (hmissing : lookup fsx (pathJoin root urlPath) = none)
    (hperm : parseOctal p = some v)
    (hput : handlePut root fs urlPath (.ok ⟨p, c⟩) =
      handlePutStat fsx urlPath (pathJoin root urlPath) ⟨p, c⟩) :
    ((handlePut root fs urlPath (.ok ⟨p, c⟩)).1).map
        (fun r => (r.Status, r.Type_, r.Code)) = [("ok", "file", 200)] ∧
    (handleGet root (handlePut root fs urlPath (.ok ⟨p, c⟩)).2 urlPath).map
        (fun r => (r.Code, r.File.map (fun f => (f.Contents, f.Permissions)))) =
      [(200, some (c, "0" ++ octalString (permMask v)))] := by
  have hstat : handlePutStat fsx urlPath (pathJoin root urlPath) ⟨p, c⟩ =
      (writeFileResponse
          ((pathJoin root urlPath,
            FsEntry.node (.file (permMask v) procUid c)) :: fsx)
          urlPath (pathJoin root urlPath),
        (pathJoin root urlPath,
          FsEntry.node (.file (permMask v) procUid c)) :: fsx) := by
    simp [handlePutStat, osStat, hmissing, isNotExist, handlePutWrite, hperm,
      writeFile, hparent]
  have hlook : lookup
      ((pathJoin root urlPath,
        FsEntry.node (.file (permMask v) procUid c)) :: fsx)
      (pathJoin root urlPath) =
      some (FsEntry.node (.file (permMask v) procUid c)) := by
    simp [lookup]
  have hresp : writeFileResponse
      ((pathJoin root urlPath,
        FsEntry.node (.file (permMask v) procUid c)) :: fsx)
      urlPath (pathJoin root urlPath) =
      [{ Status := "ok", Type_ := ResponseTypeFile, Error := none,
         File := some (NewFileData urlPath (.file (permMask v) procUid c) c),
         Directory := none }] := by
    simp [writeFileResponse, osStat, hlook, readFile]
  have hget : handleGet root
      ((pathJoin root urlPath,
        FsEntry.node (.file (permMask v) procUid c)) :: fsx) urlPath =
      writeFileResponse
        ((pathJoin root urlPath,
          FsEntry.node (.file (permMask v) procUid c)) :: fsx)
        urlPath (pathJoin root urlPath) := by
    simp [handleGet, osStat, hlook, nodeIsRegular]
  refine ⟨?_, ?_⟩
  · simp [hput, hstat, hresp, ResponseBody.Code, ResponseTypeFile,
      ResponseTypeError]
  · simp [hput, hstat, hget, hresp, ResponseBody.Code, ResponseTypeFile,
      ResponseTypeError, NewFileData, NewFileMeta, nodePerm, permMask_permMask]

/-! ### Claim C1 -/

/-- C1 counterexample: a GET whose stat fails with permission denied is
answered with code 500, not the claimed 401. -/
theorem c1_counterexample :
    (handleGet "root" fsWithDenied "/secret").map ResponseBody.Code = [500] ∧
    (handleGet "root" fsWithDenied "/secret").map ResponseBody.Code ≠ [401] := by
  decide

/-- C1 (amended): every request whose filesystem operation fails with
permission denied is classified by internalServerError and answered with
HTTP code 500 — the code has no permission-denied branch mapping to 401.
GET, DELETE (with or without the recursive flag) and POST fail at the stat
or remove of the denied target; PUT fails at the parent-directory stat when
the parent is denied, and when the target itself is denied the stat-switch
slip of C3 makes it write two responses, both carrying 500. -/
theorem c1_permission_denied_is_500
    (root urlPath rec : String) (fs : Fs) (putData : PutFileRequest)
    (postBody : Except String (List PostFileRequest))
    (h : lookup fs (pathJoin root urlPath) = some FsEntry.denied) :
    (handleGet root fs urlPath).map ResponseBody.Code = [500] ∧
    ((handleDelete root fs urlPath rec).1).map ResponseBody.Code = [500] ∧
    ((handlePost root fs urlPath postBody).1).map ResponseBody.Code = [500] ∧
    (lookup fs (pathDir (pathJoin root urlPath)) = some FsEntry.denied →
      ((handlePut root fs urlPath (.ok putData)).1).map ResponseBody.Code
        = [500]) ∧
    (∀ pn, lookup fs (pathDir (pathJoin root urlPath)) =
        some (FsEntry.node pn) →
      ∀ v, parseOctal putData.Permissions = some v →
      ((handlePut root fs urlPath (.ok putData)).1).map ResponseBody.Code
        = [500, 500]) := by
  refine ⟨?_, ?_, ?_, ?_, ?_⟩
  · simp [handleGet, osStat, h, isNotExist, internalServerError,
      writeErrorResponse, ResponseBody.Code, ResponseTypeError]
  · by_cases hrec : rec = "true"
    · simp [handleDelete, hrec, osRemoveAll, h, isNotExist,
        internalServerError, writeErrorResponse, ResponseBody.Code,
        ResponseTypeError]
    · simp [handleDelete, hrec, osRemove, h, isNotExist,
        internalServerError, writeErrorResponse, ResponseBody.Code,
        ResponseTypeError]
  · simp [handlePost, osStat, h, isNotExist, internalServerError,
      writeErrorResponse, ResponseBody.Code, ResponseTypeError]
  · intro hpar
    simp [handlePut, osStat, hpar, isNotExist, internalServerError,
      writeErrorResponse, ResponseBody.Code, ResponseTypeError]
  · intro pn hpn v hv
    simp [handlePut, osStat, hpn, handlePutStat, h, isNotExist,
      handlePutWrite, hv, writeFile, internalServerError,
      writeErrorResponse, ResponseBody.Code, ResponseTypeError]

/-- C1 witness: the amended statement evaluated at a concrete tree whose
target path and parent are denied, with the recursive flag set. -/
theorem c1_witness :
    (handleGet "root" fsDeniedChain "/a/b").map ResponseBody.Code = [500] ∧
    ((handleDelete "root" fsDeniedChain "/a/b" "true").1).map
      ResponseBody.Code = [500] ∧
    ((handlePost "root" fsDeniedChain "/a/b"
        (.ok ([] : List PostFileRequest))).1).map ResponseBody.Code = [500] ∧
    (lookup fsDeniedChain (pathDir (pathJoin "root" "/a/b")) =
        some FsEntry.denied →
      ((handlePut "root" fsDeniedChain "/a/b"
          (.ok ⟨"0600", "x"⟩)).1).map ResponseBody.Code = [500]) ∧
    (∀ pn, lookup fsDeniedChain (pathDir (pathJoin "root" "/a/b")) =
        some (FsEntry.node pn) →
      ∀ v, parseOctal "0600" = some v →
      ((handlePut "root" fsDeniedChain "/a/b"
          (.ok ⟨"0600", "x"⟩)).1).map ResponseBody.Code = [500, 500]) :=
  c1_permission_denied_is_500 "root" "/a/b" "true" fsDeniedChain
    ⟨"0600", "x"⟩ (.ok ([] : List PostFileRequest)) (by decide)

/-! ### Claim C2 -/

/-- C2 counterexample: a recursive DELETE of a missing path succeeds with
code 200 and type deleted, not the claimed 404, because RemoveAll reports no
error for a missing path. -/
theorem c2_counterexample :
    ((handleDelete "root" fsRootOnly "/missing" "true").1).map
        (fun r => (r.Code, r.Status, r.Type_)) = [(200, "ok", "deleted")] ∧
    ((handleDelete "root" fsRootOnly "/missing" "true").1).map
      ResponseBody.Code ≠ [404] := by
  decide

/-- C2 (amended): a DELETE whose resolved path does not exist answers
NotFound 404 when the recursive flag is not the string true; with
recursive set to true the handler answers 200 with type deleted, because
RemoveAll reports no error for a missing path. -/
theorem c2_delete_missing_path
    (root urlPath rec : String) (fs : Fs)
    (h : lookup fs (pathJoin root urlPath) = none) :
    (rec ≠ "true" →
      (handleDelete root fs urlPath rec).1 =
        [notFound ⟨"remove", pathJoin root urlPath, .ENOENT⟩] ∧
      ((handleDelete root fs urlPath rec).1).map ResponseBody.Code = [404]) ∧
    ((handleDelete root fs urlPath "true").1 = [deletedResponse] ∧
      ((handleDelete root fs urlPath "true").1).map ResponseBody.Code = [200]) := by
  refine ⟨fun hrec => ⟨?_, ?_⟩, ?_, ?_⟩
  · simp [handleDelete, if_neg hrec, osRemove, h, isNotExist]
  · simp [handleDelete, if_neg hrec, osRemove, h, isNotExist, notFound,
      writeErrorResponse, ResponseBody.Code, ResponseTypeError]
  · simp [handleDelete, osRemoveAll, h]
  · simp [handleDelete, osRemoveAll, h, deletedResponse, ResponseBody.Code,
      ResponseTypeError, ResponseTypeDeleted]

/-- C2 witness: the amended statement evaluated at a concrete missing
path. -/
theorem c2_witness :
    (("false" : String) ≠ "true" →
      (handleDelete "root" fsRootOnly "/missing" "false").1 =
        [notFound ⟨"remove", pathJoin "root" "/missing", .ENOENT⟩] ∧
      ((handleDelete "root" fsRootOnly "/missing" "false").1).map
        ResponseBody.Code = [404]) ∧
    ((handleDelete "root" fsRootOnly "/missing" "true").1 = [deletedResponse] ∧
      ((handleDelete "root" fsRootOnly "/missing" "true").1).map
        ResponseBody.Code = [200]) :=
  c2_delete_missing_path "root" "/missing" "false" fsRootOnly (by decide)

/-! ### Claim C3 -/

/-- C3: evaluating handlePut at a target whose stat fails with an error
other than not-exist shows the InternalServerError is not terminal — the
stat switch case lacks a return, so the handler goes on to attempt the
write and a second response is produced for the same request.  The claim
(and the spec propagation policy) say the response is terminal; the code is
a slip. -/
theorem c3_put_stat_error_not_terminal :
    (handlePut "root" fsWithDenied "/secret" (.ok ⟨"0600", "x"⟩)).1 =
      [internalServerError ⟨"lstat", "root/secret", .EACCES⟩,
       internalServerError ⟨"open", "root/secret", .EACCES⟩] ∧
    ((handlePut "root" fsWithDenied "/secret" (.ok ⟨"0600", "x"⟩)).1).length = 2 := by
  decide

/-! ### Claim C9 -/

/-- C9 counterexample: a ResponseBody whose type tag is error but whose
error payload carries code 200 computes status code 200, falsifying the
claimed equivalence between code 200 and a non-error type tag. -/
theorem c9_counterexample :
    ¬ ((ResponseBody.Code ⟨"error", "error", some ⟨200, "x"⟩, none, none⟩ = 200) ↔
       (ResponseBody.Type_ ⟨"error", "error", some ⟨200, "x"⟩, none, none⟩ ≠ "error")) := by
  decide

/-- C9 (amended): the status code of a ResponseBody is 200 whenever the
type tag is not error; with an error type tag the code is the payload code,
or 500 when the payload is nil; consequently code 200 is equivalent to a
non-error type tag provided any present error payload carries a code other
than 200. -/
theorem c9_code_of_response (b : ResponseBody) :
    (b.Type_ ≠ ResponseTypeError → b.Code = 200) ∧
    (b.Type_ = ResponseTypeError → b.Error = none → b.Code = 500) ∧
    (∀ e, b.Error = some e → b.Type_ = ResponseTypeError → b.Code = e.Code) ∧
    ((∀ e, b.Error = some e → e.Code ≠ 200) →
      (b.Code = 200 ↔ b.Type_ ≠ ResponseTypeError)) := by
  refine ⟨?_, ?_, ?_, ?_⟩
  · intro hne
    simp [ResponseBody.Code, hne]
  · intro ht he
    simp [ResponseBody.Code, ht, he]
  · intro e he ht
    simp [ResponseBody.Code, ht, he]
  · intro hcodes
    by_cases ht : b.Type_ = ResponseTypeError
    · cases hb : b.Error with
      | none => simp [ResponseBody.Code, ht, hb]
      | some e =>
        have hc := hcodes e hb
        simp [ResponseBody.Code, ht, hb, hc]
    · simp [ResponseBody.Code, ht]

/-- C9 witness: the amended statement evaluated at concrete response
bodies. -/
theorem c9_witness :
    ResponseBody.Code ⟨"ok", "deleted", none, none, none⟩ = 200 ∧
    ResponseBody.Code ⟨"error", "error", none, none, none⟩ = 500 :=
  ⟨(c9_code_of_response _).1 (by decide),
   (c9_code_of_response _).2.1 rfl rfl⟩

/-! ### Claim C4 -/

/-- C4: the POST handler validates every entry's permissions as octal in a
full pre-pass before writing any file; the first entry whose permissions
fail to parse aborts the request with a BadRequest naming that entry's
resolved path, and no regular file is added, removed or changed by the
request (when the target directory is created on the way, only directory
nodes are added). -/
theorem c4_post_validates_before_writing
    (root urlPath : String) (fs : Fs)
    (good rest : List PostFileRequest) (bad : PostFileRequest)
    (hgood : ∀ d ∈ good, (parseOctal d.Permissions).isSome = true)
    (hbad : parseOctal bad.Permissions = none) :
    (∀ dp du, lookup fs (pathJoin root urlPath) = some (.node (.dir dp du)) →
        handlePost root fs urlPath (.ok (good ++ bad :: rest)) =
          ([invalidPermissions (pathJoin (pathJoin root urlPath) bad.Name)], fs)) ∧
    (lookup fs (pathJoin root urlPath) = none →
        ∀ fs1, mkdirAll fs (pathJoin root urlPath) 448 = .ok fs1 →
          handlePost root fs urlPath (.ok (good ++ bad :: rest)) =
            ([invalidPermissions (pathJoin (pathJoin root urlPath) bad.Name)],
              fs1) ∧
          ∀ p, fileLookup fs1 p = fileLookup fs p) := by
  have hval := handlePostValidate_first_error (pathJoin root urlPath)
    good rest bad hgood hbad
  constructor
  · intro dp du h
    simp [handlePost, osStat, h, nodeIsDir, handlePostBody, hval]
  · intro h fs1 hmk
    refine ⟨?_, mkdirAll_files fs fs1 _ 448 hmk⟩
    simp [handlePost, osStat, h, isNotExist, hmk, handlePostBody, hval]

/-- C4 witness: a concrete POST with a valid first entry and an invalid
second entry aborts naming the second entry's resolved path and leaves the
filesystem untouched. -/
theorem c4_witness :
    handlePost "root" fsWithSubdir "/d"
        (.ok [⟨"a.txt", "0644", "x"⟩, ⟨"b.txt", "bad", "y"⟩]) =
      ([invalidPermissions (pathJoin (pathJoin "root" "/d") "b.txt")],
        fsWithSubdir) :=
  (c4_post_validates_before_writing "root" "/d" fsWithSubdir
      [⟨"a.txt", "0644", "x"⟩] [] ⟨"b.txt", "bad", "y"⟩
      (by decide) (by decide)).1 448 0 (by decide)

/-! ### Claim C6 -/

/-- C6: a DELETE of a non-empty directory without recursive set to true is
answered with BadRequest 400 whose message surfaces the underlying
directory-not-empty condition, and the filesystem is unchanged. -/
theorem c6_delete_nonempty_dir
    (root urlPath rec : String) (fs : Fs) (dp du : Nat)
    (hdir : lookup fs (pathJoin root urlPath) = some (.node (.dir dp du)))
    (hne : hasChildren fs (pathJoin root urlPath) = true)
    (hrec : rec ≠ "true") :
    handleDelete root fs urlPath rec =
      ([badRequest (OsError.Error ⟨"remove", pathJoin root urlPath, .ENOTEMPTY⟩)],
        fs) ∧
    ((handleDelete root fs urlPath rec).1).map ResponseBody.Code = [400] ∧
    OsError.Error ⟨"remove", pathJoin root urlPath, .ENOTEMPTY⟩ =
      "remove " ++ pathJoin root urlPath ++ ": directory not empty" := by
  refine ⟨?_, ?_, ?_⟩
  · simp [handleDelete, if_neg hrec, osRemove, hdir, hne]
  · simp [handleDelete, if_neg hrec, osRemove, hdir, hne, badRequest,
      writeErrorResponse, ResponseBody.Code, ResponseTypeError]
  · show ("remove" ++ " " ++ pathJoin root urlPath ++ ": ") ++
        "directory not empty" = _
    rw [string_append_assoc ("remove" ++ " " ++ pathJoin root urlPath) ": "
      "directory not empty"]
    have e1 : ("remove" : String) ++ " " = "remove " := rfl
    have e2 : (": " : String) ++ "directory not empty" =
      ": directory not empty" := rfl
    rw [e1, e2]

/-- C6 witness: the statement evaluated at a concrete non-empty
directory. -/
theorem c6_witness :
    handleDelete "root" fsWithSubdir "/d" "" =
      ([badRequest (OsError.Error ⟨"remove", pathJoin "root" "/d", .ENOTEMPTY⟩)],
        fsWithSubdir) ∧
    ((handleDelete "root" fsWithSubdir "/d" "").1).map ResponseBody.Code = [400] ∧
    OsError.Error ⟨"remove", pathJoin "root" "/d", .ENOTEMPTY⟩ =
      "remove " ++ pathJoin "root" "/d" ++ ": directory not empty" :=
  c6_delete_nonempty_dir "root" "/d" "" fsWithSubdir 448 0
    (by decide) (by decide) (by decide)

/-! ### Claim C8 -/

/-- C8: the entry classifier maps every node mode to exactly one of the four
type tags, by the entry's own non-followed mode: file for a regular mode,
directory for a directory mode, symlink for a mode with the symlink bit
(regardless of any target), unsupported for everything else. -/
theorem c8_entry_classifier (dirPath name : String) (n : FsNode) :
    ((NewDirectoryEntry dirPath (name, n)).Type_ = DirectoryEntryTypeFile ∨
     (NewDirectoryEntry dirPath (name, n)).Type_ = DirectoryEntryTypeDirectory ∨
     (NewDirectoryEntry dirPath (name, n)).Type_ = DirectoryEntryTypeSymlink ∨
     (NewDirectoryEntry dirPath (name, n)).Type_ = DirectoryEntryTypeUnsupported) ∧
    ((NewDirectoryEntry dirPath (name, n)).Type_ = DirectoryEntryTypeFile ↔
      nodeIsRegular n = true) ∧
    ((NewDirectoryEntry dirPath (name, n)).Type_ = DirectoryEntryTypeDirectory ↔
      nodeIsDir n = true) ∧
    ((NewDirectoryEntry dirPath (name, n)).Type_ = DirectoryEntryTypeSymlink ↔
      nodeIsSymlink n = true) ∧
    ((NewDirectoryEntry dirPath (name, n)).Type_ = DirectoryEntryTypeUnsupported ↔
      (nodeIsRegular n = false ∧ nodeIsDir n = false ∧ nodeIsSymlink n = false)) := by
  cases n <;>
    simp [NewDirectoryEntry, nodeIsRegular, nodeIsDir, nodeIsSymlink,
      DirectoryEntryTypeFile, DirectoryEntryTypeDirectory,
      DirectoryEntryTypeSymlink, DirectoryEntryTypeUnsupported,
      ResponseTypeFile, ResponseTypeDirectory]

/-! ### Claim C10 -/

/-- C10: a PUT whose target already exists as a regular file succeeds and
echoes the file back, but the file keeps its previous permission bits: the
request's permissions value only takes effect at creation, because
WriteFile opens an existing file without applying the mode. -/
theorem c10_put_existing_file_keeps_perms
    (root urlPath p c : String) (fs : Fs) (v oldPerm uid : Nat) (oldC : String)
    (pn : FsNode)
    (hpdir : lookup fs (pathDir (pathJoin root urlPath)) = some (.node pn))
    (hfile : lookup fs (pathJoin root urlPath) =
      some (.node (.file oldPerm uid oldC)))
    (hperm : parseOctal p = some v) :
    lookup (handlePut root fs urlPath (.ok ⟨p, c⟩)).2 (pathJoin root urlPath) =
      some (.node (.file oldPerm uid c)) ∧
    ((handlePut root fs urlPath (.ok ⟨p, c⟩)).1).map
        (fun r => (r.Status, r.Type_)) = [("ok", ResponseTypeFile)] ∧
    ((handlePut root fs urlPath (.ok ⟨p, c⟩)).1).map
        (fun r => r.File.map (fun f => (f.Permissions, f.Contents))) =
      [some ("0" ++ octalString (permMask oldPerm), c)] := by
  have hlook := lookup_updateEntry_self fs (pathJoin root urlPath)
    (.file oldPerm uid c) _ hfile
  have hput : handlePut root fs urlPath (.ok ⟨p, c⟩) =
      (writeFileResponse
          (updateEntry fs (pathJoin root urlPath) (.file oldPerm uid c))
          urlPath (pathJoin root urlPath),
        updateEntry fs (pathJoin root urlPath) (.file oldPerm uid c)) := by
    simp [handlePut, osStat, hpdir, handlePutStat, hfile, nodeIsRegular,
      handlePutWrite, hperm, writeFile]
  have hresp : writeFileResponse
      (updateEntry fs (pathJoin root urlPath) (.file oldPerm uid c))
      urlPath (pathJoin root urlPath) =
      [{ Status := "ok", Type_ := ResponseTypeFile, Error := none,
         File := some (NewFileData urlPath (.file oldPerm uid c) c),
         Directory := none }] := by
    simp [writeFileResponse, osStat, hlook, readFile]
  refine ⟨?_, ?_, ?_⟩
  · simp only [hput]
    exact hlook
  · simp [hput, hresp]
  · simp [hput, hresp, NewFileData, NewFileMeta, nodePerm, nodeUid]

/-- C10 witness: a concrete PUT on an existing 0644 file with requested
permissions 0600 answers ok with the old permissions and the new
contents. -/
theorem c10_witness :
    lookup (handlePut "root" fsWithFile "/f" (.ok ⟨"0600", "new"⟩)).2
        (pathJoin "root" "/f") = some (.node (.file 420 0 "new")) ∧
    ((handlePut "root" fsWithFile "/f" (.ok ⟨"0600", "new"⟩)).1).map
        (fun r => (r.Status, r.Type_)) = [("ok", ResponseTypeFile)] ∧
    ((handlePut "root" fsWithFile "/f" (.ok ⟨"0600", "new"⟩)).1).map
        (fun r => r.File.map (fun f => (f.Permissions, f.Contents))) =
      [some ("0" ++ octalString (permMask 420), "new")] :=
  c10_put_existing_file_keeps_perms "root" "/f" "0600" "new" fsWithFile
    384 420 0 "old" (.dir 448 0) (by decide) (by decide) (by decide)

/-! ### Claim C5 -/

/-- C5 counterexample: a successful PUT of permissions 0600 over an existing
0644 file is followed by a GET reporting permissions 0644, not the 0600
that was written, so the round-trip fails as universally stated. -/
theorem c5_counterexample :
    ((handlePut "root" fsWithFile "/f" (.ok ⟨"0600", "new"⟩)).1).map
        ResponseBody.Code = [200] ∧
    ((handleGet "root"
        (handlePut "root" fsWithFile "/f" (.ok ⟨"0600", "new"⟩)).2 "/f").map
        (fun r => r.File.map (fun f => f.Permissions))) = [some "0644"] ∧
    ("0644" : String) ≠ "0600" := by
  decide

/-- C5 (amended): a successful PUT at a path that does not already exist,
with valid octal permissions and contents, followed by a GET on the same
path, returns contents identical to what was written and permissions equal
to the canonical leading-zero octal rendering of the written permission
bits (identical to the request string whenever that string is canonical).
Covered both when the parent directory already exists and when the handler
creates the missing parent chain with MkdirAll, as in the spec scenario of
PUT /a/b/hello.txt on a bare root; the two membership side conditions hold
for every cleaned path, as every resolved path is.  For a pre-existing file
the permissions do not round-trip, as the counterexample shows. -/
theorem c5_put_fresh_get_roundtrip
    (root urlPath p c : String) (fs : Fs) (v : Nat)
    (hmissing : lookup fs (pathJoin root urlPath) = none)
    (hperm : parseOctal p = some v) :
    (∀ dp du,
      lookup fs (pathDir (pathJoin root urlPath)) =
        some (.node (.dir dp du)) →
      ((handlePut root fs urlPath (.ok ⟨p, c⟩)).1).map
          (fun r => (r.Status, r.Type_, r.Code)) = [("ok", "file", 200)] ∧
      (handleGet root (handlePut root fs urlPath (.ok ⟨p, c⟩)).2 urlPath).map
          (fun r => (r.Code, r.File.map (fun f => (f.Contents, f.Permissions)))) =
        [(200, some (c, "0" ++ octalString (permMask v)))]) ∧
    (lookup fs (pathDir (pathJoin root urlPath)) = none →
      pathDir (pathJoin root urlPath) ∈
        pathAncestors (pathDir (pathJoin root urlPath)) →
      pathJoin root urlPath ∉
        pathAncestors (pathDir (pathJoin root urlPath)) →
      ∀ fsd, mkdirAll fs (pathDir (pathJoin root urlPath)) 448 = .ok fsd →
      ((handlePut root fs urlPath (.ok ⟨p, c⟩)).1).map
          (fun r => (r.Status, r.Type_, r.Code)) = [("ok", "file", 200)] ∧
      (handleGet root (handlePut root fs urlPath (.ok ⟨p, c⟩)).2 urlPath).map
          (fun r => (r.Code, r.File.map (fun f => (f.Contents, f.Permissions)))) =
        [(200, some (c, "0" ++ octalString (permMask v)))]) := by
  constructor
  · intro dp du hpar
    apply put_roundtrip_core root urlPath p c fs fs v dp du hpar hmissing hperm
    simp [handlePut, osStat, hpar]
  · intro hpd hmem hnot fsd hmk
    have hmk2 : mkdirList fs 448
        (pathAncestors (pathDir (pathJoin root urlPath))) = .ok fsd := hmk
    obtain ⟨a, b, hdir⟩ := mkdirList_creates_dirs 448 _ fs fsd hmk2 _ hmem
    have hmiss2 : lookup fsd (pathJoin root urlPath) = none :=
      mkdirList_preserves_none 448 _ fs fsd hmk2 _ hnot hmissing
    apply put_roundtrip_core root urlPath p c fs fsd v a b hdir hmiss2 hperm
    simp [handlePut, osStat, hpd, isNotExist, hmk]

/-- C5 witness: the amended statement evaluated at the spec scenario, a PUT
of /a/b/hello.txt against a bare content root, where the handler creates
the missing intermediate directories before writing. -/
theorem c5_witness :
    ((handlePut "root" fsRootOnly "/a/b/hello.txt"
        (.ok ⟨"0600", "hi"⟩)).1).map
        (fun r => (r.Status, r.Type_, r.Code)) = [("ok", "file", 200)] ∧
    (handleGet "root"
        (handlePut "root" fsRootOnly "/a/b/hello.txt"
          (.ok ⟨"0600", "hi"⟩)).2
        "/a/b/hello.txt").map
        (fun r => (r.Code, r.File.map (fun f => (f.Contents, f.Permissions)))) =
      [(200, some ("hi", "0" ++ octalString (permMask 384)))] :=
  (c5_put_fresh_get_roundtrip "root" "/a/b/hello.txt" "0600" "hi" fsRootOnly
      384 (by decide) (by decide)).2 (by decide) (by decide) (by decide)
    [("root/a/b", FsEntry.node (.dir 448 0)),
     ("root/a", FsEntry.node (.dir 448 0)),
     ("root", FsEntry.node (.dir 448 0))]
    (by rfl)

/-! ### Claim C7 -/

/-- C7: a GET on a URL path resolving to a directory answers with a
directory payload whose name is forced to the slash when the URL path is the
root, and is the final path segment for every other directory path. -/
theorem c7_root_dir_name
    (root urlPath : String) (fs : Fs) (dp du : Nat)
    (hstat : lookup fs (pathJoin root urlPath) = some (.node (.dir dp du))) :
    ∃ d, handleGet root fs urlPath =
        [{ Status := "ok", Type_ := ResponseTypeDirectory, Error := none,
           File := none, Directory := some d }] ∧
      (urlPath = "/" → d.Name = "/") ∧
      (∀ pre seg, urlPath = pre ++ "/" ++ seg → seg ≠ "" →
        (∀ ch ∈ seg.data, ch ≠ '/') → d.Name = seg) := by
  by_cases hroot : urlPath = "/"
  · subst hroot
    refine ⟨{ NewDirectoryData "/" (.dir dp du)
        (childrenOf fs (pathJoin root "/")) with Name := "/" },
      ?_, fun _ => rfl, ?_⟩
    · simp [handleGet, osStat, hstat, nodeIsRegular, nodeIsDir,
        writeDirResponse, readDir]
    · intro pre seg hsplit hne _
      exfalso
      have hdata : ("/" : String).data = (pre ++ "/" ++ seg).data :=
        congrArg String.data hsplit
      rw [string_data_append, string_data_append] at hdata
      have hslash : ("/" : String).data = ['/'] := rfl
      rw [hslash] at hdata
      have hlen := congrArg List.length hdata
      simp only [List.length_append, List.length_cons, List.length_nil] at hlen
      have hz : seg.data = [] := List.eq_nil_of_length_eq_zero (by omega)
      exact hne (string_ext hz)
  · refine ⟨NewDirectoryData urlPath (.dir dp du)
        (childrenOf fs (pathJoin root urlPath)),
      ?_, fun h => absurd h hroot, ?_⟩
    · simp [handleGet, osStat, hstat, nodeIsRegular, nodeIsDir,
        writeDirResponse, readDir, hroot]
    · intro pre seg hsplit hne hn
      have hname : (NewDirectoryData urlPath (.dir dp du)
          (childrenOf fs (pathJoin root urlPath))).Name = pathBase urlPath := by
        simp [NewDirectoryData, NewFileMeta]
      rw [hname, hsplit]
      exact pathBase_concat pre seg hne hn

/-- C7 witness: a GET on the root URL path reports the forced name, and a
GET on a non-root directory path reports the final path segment. -/
theorem c7_witness :
    ((handleGet "root" fsWithSubdir "/").map
      (fun r => r.Directory.map (fun d => d.Name))) = [some "/"] ∧
    ((handleGet "root" fsWithSubdir "/d").map
      (fun r => r.Directory.map (fun d => d.Name))) = [some "d"] := by
  constructor
  · obtain ⟨d, hresp, hname, -⟩ :=
      c7_root_dir_name "root" "/" fsWithSubdir 448 0 (by decide)
    simp [hresp, hname rfl]
  · obtain ⟨d, hresp, -, hseg⟩ :=
      c7_root_dir_name "root" "/d" fsWithSubdir 448 0 (by decide)
    have hd := hseg "" "d" rfl (by decide) (by decide)
    simp [hresp, hd]
